import Mathlib

/-!
Verification of the BBNaija sentiment-analysis pipeline.

Shallow embedding of the data/analysis/services layers:
`src/data/data_cleaner.py`, `src/data/data_loader.py`,
`src/analysis/sentiment_analyzer.py`, `src/analysis/rating_calculator.py`,
`src/models/tweet_data.py`, `src/utils/file_utils.py`.

Python strings are modelled as Lean `String` (operations are re-implemented
over `String.data` character lists so that everything reduces in the kernel);
missing table cells (pandas `NaN`) are modelled as `Option.none`;
floating-point arithmetic is modelled over `ℚ`.
-/

namespace BBNaija

/-! ### Python string primitives -/

/-- Python `str.strip(chars)`: remove every leading and every trailing
character that belongs to `chars` (repeatedly, from both ends). -/
def pyStrip (chars : List Char) (s : String) : String :=
  String.mk (((s.data.dropWhile (· ∈ chars)).reverse.dropWhile (· ∈ chars)).reverse)

/-- Python `str.split(sep)` for a single-character separator, on char lists:
`"".split` gives `[""]`, empty fields are kept. -/
def pySplitChar (c : Char) : List Char → List (List Char)
  | [] => [[]]
  | x :: xs =>
    if x = c then [] :: pySplitChar c xs
    else
      match pySplitChar c xs with
      | [] => [[x]]
      | r :: rs => (x :: r) :: rs

/-- Python `str.split('/')` lifted to `String`. -/
def pySplit (c : Char) (s : String) : List String :=
  (pySplitChar c s.data).map String.mk

/-- Python `str.lower()` (ASCII-faithful). -/
def pyLower (s : String) : String :=
  String.mk (s.data.map Char.toLower)

/-- Suffix test on character lists: does `l2` end with `l1`? -/
def isSuffixList (l1 l2 : List Char) : Bool :=
  (l2.drop (l2.length - l1.length) == l1) && (l1.length ≤ l2.length)

/-- Python `str.endswith(suf)`. -/
def pyEndsWith (suf s : String) : Bool :=
  isSuffixList suf.data s.data

/-- Python `str(x)` on a possibly-missing table cell: `str(nan) = "nan"`. -/
def pyStr : Option String → String
  | none => "nan"
  | some s => s

/-! ### Config (src/config.py) -/

/-- Source `Config.REQUIRED_COLUMNS = ['date', 'tweet', 'urls']`. -/
def REQUIRED_COLUMNS : List String := ["date", "tweet", "urls"]

/-- Source `Config.TWITTER_DOMAIN = "twitter.com"`. -/
def TWITTER_DOMAIN : String := "twitter.com"

/-! ### Record Cleaner (src/data/data_cleaner.py) -/

/-- One row of a tweet table after projection to the required columns.
A `none` field is a pandas `NaN` cell. -/
structure Row where
  date : Option String
  tweet : Option String
  urls : Option String
deriving DecidableEq, Repr

/-- The per-cell body of `TweetDataCleaner._clean_urls`:
`str(text).strip('[]')`, then `.split('/')`, then
`'' if len(parts) < 3 else parts[2]`. -/
def cleanUrl (cell : Option String) : String :=
  let stripped := pyStrip ['[', ']'] (pyStr cell)
  let parts := pySplit '/' stripped
  if parts.length < 3 then "" else parts.getD 2 ""

/-- Source `TweetDataCleaner._filter_non_twitter_urls`: blank (to `NaN`) any
authority longer than `TWITTER_DOMAIN` that is not `TWITTER_DOMAIN`. -/
def filterNonTwitterUrls (url : String) : Option String :=
  if TWITTER_DOMAIN.length < url.length then
    if url ≠ TWITTER_DOMAIN then none else some url
  else some url

/-- Source `TweetDataCleaner._clean_urls` applied to the whole table. -/
def cleanUrlsStep (rows : List Row) : List Row :=
  rows.map fun r => { r with urls := some (cleanUrl r.urls) }

/-- Source `TweetDataCleaner._remove_ads` applied to the whole table. -/
def removeAdsStep (rows : List Row) : List Row :=
  rows.map fun r => { r with urls := r.urls.bind filterNonTwitterUrls }

/-- Source `TweetDataCleaner._remove_missing_data`: pandas `dropna()` — a row is
kept exactly when no cell is `NaN`. -/
def removeMissingData (rows : List Row) : List Row :=
  rows.filter fun r => r.date.isSome && r.tweet.isSome && r.urls.isSome

/-- Source `TweetDataCleaner.clean_tweet_data`: column projection (the identity on
our already-projected `Row`), then `_clean_urls`, `_remove_ads`,
`_remove_missing_data`, in the source's order. -/
def cleanTweetData (rows : List Row) : List Row :=
  removeMissingData (removeAdsStep (cleanUrlsStep rows))

/-- Modelled from the spec (claim wording, for comparison with `cleanUrl`):
strip a SINGLE leading and a SINGLE trailing literal `[`/`]` character
(if present), split on `/`, take index 2, else the empty string. -/
def cleanUrlClaim (cell : Option String) : String :=
  let l0 := (pyStr cell).data
  let l1 := match l0 with
    | c :: rest => if c = '[' ∨ c = ']' then rest else l0
    | [] => l0
  let l2 := match l1.reverse with
    | c :: rest => if c = '[' ∨ c = ']' then rest.reverse else l1
    | [] => l1
  let parts := pySplit '/' (String.mk l2)
  if parts.length < 3 then "" else parts.getD 2 ""

example : cleanUrl (some "[https://twitter.com/user/status/123]") = "twitter.com" := by decide
example : cleanUrl (some "[a/b]") = "" := by decide
example : cleanUrl (some "[[twitter.com/user/status]]") = "status" := by decide
example : cleanUrlClaim (some "[[twitter.com/user/status]]") = "status]" := by decide
example : filterNonTwitterUrls "ads.example.com" = none := by decide
example : filterNonTwitterUrls "twitter.com" = some "twitter.com" := by decide

/-! ### File utilities (src/utils/file_utils.py) -/

/-- Source `FileUtils.is_csv_file`: `filename.lower().endswith('.csv')`. -/
def isCsvFile (filename : String) : Bool :=
  pyEndsWith ".csv" (pyLower filename)

/-- Index of the last `'.'` in a character list, if any
(Python `str.rfind('.')` restricted to found case). -/
def rfindDot (l : List Char) : Option Nat :=
  ((List.range l.length).filter fun i => l.getD i ' ' = '.').getLast?

/-- Embeds `pathlib.PurePath(...).stem` for a bare file name: the name without its
suffix, where a suffix exists only when the last dot sits strictly inside
the name (`0 < i < len - 1`); case is preserved. -/
def pathStem (name : String) : String :=
  match rfindDot name.data with
  | some i =>
      if 0 < i ∧ i < name.data.length - 1 then String.mk (name.data.take i)
      else name
  | none => name

/-- Source `FileUtils.find_csv_files` over an abstract directory listing: keep the
names passing `is_csv_file`, pair each with the housemate name (the stem). -/
def findCsvFiles (listing : List String) : List (String × String) :=
  (listing.filter fun n => isCsvFile n).map fun n => (n, pathStem n)

example : isCsvFile "Laycon.CSV" = true := by decide
example : pathStem "Laycon.CSV" = "Laycon" := by decide
example : pathStem ".csv" = ".csv" := by decide

/-! ### Record Loader (src/data/data_loader.py) -/

/-- The parse outcome of one discovered file, abstracting the file system:
`readable` is `FileUtils.validate_file_path`, `columns`/`rowCount` describe
the table `pd.read_csv` would produce. -/
structure ParsedCsv where
  name : String
  readable : Bool
  columns : List String
  rowCount : Nat
deriving DecidableEq, Repr

/-- The per-file failure classes of `TweetDataLoader._load_single_file`.
`missingColumns` carries the specific missing column names. -/
inductive LoadError where
  | cannotRead (path : String)
  | emptyFile (filename : String)
  | missingColumns (filename : String) (missing : List String)
deriving DecidableEq, Repr

/-- Source `models.tweet_data.TweetData` (the dataframe abstracted to its shape). -/
structure TweetData where
  housemateName : String
  columns : List String
  rowCount : Nat
deriving DecidableEq, Repr

/-- Source `TweetDataLoader._validate_columns`: `missing = required - actual`
(the Python set difference, here listed in `REQUIRED_COLUMNS` order). -/
def validateColumns (columns : List String) (filename : String) :
    Except LoadError Unit :=
  if (REQUIRED_COLUMNS.filter fun c => ! columns.contains c) = [] then .ok ()
  else .error (.missingColumns filename
    (REQUIRED_COLUMNS.filter fun c => ! columns.contains c))

/-- Source `TweetDataLoader._load_single_file`: unreadable file, empty table and
missing columns each fail this file's load. -/
def loadSingleFile (f : ParsedCsv) : Except LoadError TweetData :=
  if ¬ f.readable then .error (.cannotRead f.name)
  else if f.rowCount = 0 then .error (.emptyFile f.name)
  else (validateColumns f.columns f.name).map fun _ =>
    ⟨pathStem f.name, f.columns, f.rowCount⟩

/-- Source `TweetDataLoader.load_all_tweets`: each file's failure is logged and
skipped (`try/except: continue`); zero discovered files and zero loaded
files each abort the whole operation. -/
def loadAllTweets (files : List ParsedCsv) : Except String (List TweetData) :=
  if files = [] then .error "No CSV files found"
  else
    let loaded := files.filterMap fun f => (loadSingleFile f).toOption
    if loaded = [] then .error "Failed to load any valid tweet data"
    else .ok loaded

/-! ### Sentiment Scorer (src/analysis/sentiment_analyzer.py) -/

/-- The VADER score dictionary `{neg, neu, pos, compound}`. -/
structure SentimentScores where
  neg : ℚ
  neu : ℚ
  pos : ℚ
  compound : ℚ
deriving DecidableEq, Repr

/-- The neutral default substituted on a scoring failure. -/
def neutralScores : SentimentScores := ⟨0, 1, 0, 0⟩

/-- Source `SentimentAnalyzer.analyze_tweet` with the scoring capability injected:
a raised exception (`Except.error`) is caught and replaced by the neutral
default for this row only. -/
def analyzeTweet (capability : String → Except String SentimentScores)
    (tweetText : String) : SentimentScores :=
  match capability tweetText with
  | .ok scores => scores
  | .error _ => neutralScores

/-- A table row after `SentimentAnalyzer.analyze_dataframe`: the original
text plus the `scores`, `compound`, `positive`, `negative`, `neutral`
columns the source attaches. -/
structure ScoredRow where
  tweet : String
  scores : SentimentScores
  compound : ℚ
  positive : ℚ
  negative : ℚ
  neutral : ℚ
deriving DecidableEq, Repr

/-- Source `SentimentAnalyzer.analyze_dataframe`: score every row's text. -/
def analyzeDataframe (capability : String → Except String SentimentScores)
    (texts : List String) : List ScoredRow :=
  texts.map fun t =>
    let s := analyzeTweet capability t
    ⟨t, s, s.compound, s.pos, s.neg, s.neu⟩

/-- Insertion step of an ascending sort over `ℚ`. -/
def insertSorted (x : ℚ) : List ℚ → List ℚ
  | [] => [x]
  | y :: ys => if x ≤ y then x :: y :: ys else y :: insertSorted x ys

/-- Ascending sort (the order pandas uses for the median). -/
def sortScores (l : List ℚ) : List ℚ := l.foldr insertSorted []

/-- Embeds `pandas.Series.mean`. -/
def pandasMean (l : List ℚ) : ℚ := l.sum / (l.length : ℚ)

/-- Embeds `pandas.Series.median`: middle of the sorted values, or the average of
the two middles for an even count. -/
def pandasMedian (l : List ℚ) : ℚ :=
  let s := sortScores l
  if l.length % 2 = 1 then s.getD (l.length / 2) 0
  else (s.getD (l.length / 2 - 1) 0 + s.getD (l.length / 2) 0) / 2

/-- Embeds `pandas.Series.min` (only used on non-empty input). -/
def pandasMin (l : List ℚ) : ℚ :=
  match l with
  | [] => 0
  | x :: xs => xs.foldl min x

/-- Embeds `pandas.Series.max` (only used on non-empty input). -/
def pandasMax (l : List ℚ) : ℚ :=
  match l with
  | [] => 0
  | x :: xs => xs.foldl max x

/-- The square of `pandas.Series.std` (sample variance, `ddof = 1`); the
square is kept so the value stays in `ℚ` — `std` itself is its square root,
a strictly monotone image that no claim depends on. -/
def sampleVariance (l : List ℚ) : ℚ :=
  ((l.map fun x => (x - pandasMean l) ^ 2).sum) / ((l.length - 1 : ℕ) : ℚ)

/-- The statistics dictionary of
`SentimentAnalyzer.get_sentiment_statistics`; `stdSquared` stands for the
`'std'` entry (see `sampleVariance`), `positiveShare`/`negativeShare`/
`neutralShare` for `'positive_ratio'`/`'negative_ratio'`/`'neutral_ratio'`. -/
structure SentimentStatistics where
  mean : ℚ
  median : ℚ
  stdSquared : ℚ
  minScore : ℚ
  maxScore : ℚ
  positiveShare : ℚ
  negativeShare : ℚ
  neutralShare : ℚ
deriving DecidableEq, Repr

/-- Source `SentimentAnalyzer.get_sentiment_statistics` on the `compound` column:
an empty table returns the empty dictionary (`none`); each ratio is
`count / total if total > 0 else 0` as in the source. -/
def getSentimentStatistics (compounds : List ℚ) : Option SentimentStatistics :=
  if compounds = [] then none
  else
    let positiveCount : ℚ := ((compounds.filter fun c => (1 : ℚ)/20 < c).length : ℚ)
    let negativeCount : ℚ := ((compounds.filter fun c => c < -(1 : ℚ)/20).length : ℚ)
    let total : ℚ := (compounds.length : ℚ)
    let neutralCount : ℚ := total - positiveCount - negativeCount
    some
      ⟨pandasMean compounds, pandasMedian compounds, sampleVariance compounds,
       pandasMin compounds, pandasMax compounds,
       if 0 < total then positiveCount / total else 0,
       if 0 < total then negativeCount / total else 0,
       if 0 < total then neutralCount / total else 0⟩

/-! ### Rating Aggregator (src/analysis/rating_calculator.py) -/

/-- Source `RatingCalculator.calculate_rating`: the mean compound score and the
tweet count; an empty table raises (`ValueError`). -/
def calculateRating (compounds : List ℚ) (housemateName : String) :
    Except String (ℚ × Nat) :=
  if compounds = [] then
    .error ("Cannot calculate rating for empty DataFrame (" ++ housemateName ++ ")")
  else .ok (compounds.sum / (compounds.length : ℚ), compounds.length)

/-- Source `RatingCalculator._normalize_to_percentages` over an insertion-ordered
mapping (association list): equal shares when the total is exactly zero,
otherwise the linear share `(rating / total) * 100`. -/
def normalizeToPercentages (rawRatings : List (String × ℚ)) :
    List (String × ℚ) :=
  let total := (rawRatings.map Prod.snd).sum
  if total = 0 then
    rawRatings.map fun p => (p.1, 100 / (rawRatings.length : ℚ))
  else
    rawRatings.map fun p => (p.1, p.2 / total * 100)

/-- Source `models.tweet_data.AnalysisResult` (the summary dataframe omitted):
three insertion-ordered mappings sharing the same keys. -/
structure AnalysisResult where
  housemateRatings : List (String × ℚ)
  rawScores : List (String × ℚ)
  totalTweets : List (String × Nat)
deriving DecidableEq, Repr

/-- The `raw_ratings`/`tweet_counts` loop of
`RatingCalculator.calculate_all_ratings`: each housemate's rating is
attempted, a failure is logged and skipped (`except: continue`). -/
def rawResults (analyzedData : List (String × List ℚ)) :
    List (String × (ℚ × Nat)) :=
  analyzedData.filterMap fun p =>
    ((calculateRating p.2 p.1).toOption).map fun rc => (p.1, rc)

/-- Source `RatingCalculator.calculate_all_ratings`: per-housemate failures
(empty tables) are caught and skipped; the batch fails when no data was
given or when every housemate failed; survivors are normalized. -/
def calculateAllRatings (analyzedData : List (String × List ℚ)) :
    Except String AnalysisResult :=
  if analyzedData = [] then .error "No data provided for rating calculation"
  else if rawResults analyzedData = [] then
    .error "Failed to calculate any ratings"
  else
    .ok ⟨normalizeToPercentages
           ((rawResults analyzedData).map fun t => (t.1, t.2.1)),
         (rawResults analyzedData).map fun t => (t.1, t.2.1),
         (rawResults analyzedData).map fun t => (t.1, t.2.2)⟩

/-- Helper `Except.isOk` spelled out. -/
def exceptIsOk : Except ε α → Bool
  | .ok _ => true
  | .error _ => false

/-! ### Ranking queries (src/models/tweet_data.py) -/

/-- Python `min(items, key expressed by k)` over a non-empty sequence
`h :: t`: scan left to right, replace the current best only on a strictly
smaller key, so the FIRST element attaining the minimum wins. -/
def pyMinKey (k : String × ℚ → ℚ) (h : String × ℚ) (t : List (String × ℚ)) :
    String × ℚ :=
  t.foldl (fun acc q => if k q < k acc then q else acc) h

/-- Source `AnalysisResult.get_lowest_rated`: the sentinel `(None, 0.0)` on an
empty mapping, else `min(self.housemate_ratings.items(), key=value)`. -/
def getLowestRated (ratings : List (String × ℚ)) : Option String × ℚ :=
  match ratings with
  | [] => (none, 0)
  | h :: t =>
    let m := pyMinKey (fun p => p.2) h t
    (some m.1, m.2)

/-- Source `AnalysisResult.get_highest_rated`: the sentinel `(None, 0.0)` on an
empty mapping, else Python `max` (replace only on a strictly greater
value, so the first maximum wins). -/
def getHighestRated (ratings : List (String × ℚ)) : Option String × ℚ :=
  match ratings with
  | [] => (none, 0)
  | h :: t =>
    let m := t.foldl (fun acc q => if acc.2 < q.2 then q else acc) h
    (some m.1, m.2)

example : getLowestRated [("A", 5), ("B", 3), ("C", 3)] = (some "B", 3) := by decide
example : getHighestRated [("A", 5), ("B", 5), ("C", 3)] = (some "A", 5) := by decide

/-! ### Helper lemmas -/

/-- A value surviving the ad filter is never an ad authority. -/
theorem filterNonTwitterUrls_some (u s : String)
    (h : filterNonTwitterUrls u = some s) :
    ¬ (TWITTER_DOMAIN.length < s.length ∧ s ≠ TWITTER_DOMAIN) := by
  unfold filterNonTwitterUrls at h
  by_cases h1 : TWITTER_DOMAIN.length < u.length
  · rw [if_pos h1] at h
    by_cases h2 : u = TWITTER_DOMAIN
    · rw [if_neg (by simp [h2])] at h
      rintro ⟨-, hs⟩
      exact hs (by rw [← Option.some_inj.mp h, h2])
    · rw [if_pos h2] at h
      exact absurd h (by simp)
  · rw [if_neg h1] at h
    rintro ⟨hlen, -⟩
    exact h1 (by rwa [Option.some_inj.mp h])

/-! ### C4 -/

/-- C4: the ad filter blanks an extracted authority exactly when it is
longer than the literal `"twitter.com"` and not equal to `"twitter.com"`;
every other authority passes through unchanged. -/
theorem filter_non_twitter_urls_spec (url : String) :
    (filterNonTwitterUrls url = none ↔
      (TWITTER_DOMAIN.length < url.length ∧ url ≠ TWITTER_DOMAIN)) ∧
    (¬ (TWITTER_DOMAIN.length < url.length ∧ url ≠ TWITTER_DOMAIN) →
      filterNonTwitterUrls url = some url) := by
  unfold filterNonTwitterUrls
  by_cases h1 : TWITTER_DOMAIN.length < url.length
  · by_cases h2 : url = TWITTER_DOMAIN <;> simp [h1, h2]
  · simp [h1]

/-- C4 witness: `"twitter.com"` itself passes through unchanged. -/
theorem filter_non_twitter_urls_spec_witness :
    filterNonTwitterUrls "twitter.com" = some "twitter.com" :=
  (filter_non_twitter_urls_spec "twitter.com").2 (by decide)

/-! ### C7 -/

/-- C7: if the injected scoring capability raises for a row's text the
scorer substitutes the neutral default for that row only; a successful
score is kept; scoring a whole table touches each row independently and
the error never reaches the caller (`analyzeTweet` is total). -/
theorem analyze_tweet_error_recovery
    (capability : String → Except String SentimentScores) :
    (∀ t e, capability t = .error e →
      analyzeTweet capability t = neutralScores) ∧
    (∀ t s, capability t = .ok s → analyzeTweet capability t = s) ∧
    (∀ texts : List String,
      (analyzeDataframe capability texts).length = texts.length ∧
      ∀ i : Nat, ((analyzeDataframe capability texts)[i]?).map ScoredRow.scores
        = (texts[i]?).map (analyzeTweet capability)) := by
  refine ⟨fun t e he => ?_, fun t s hs => ?_, fun texts => ⟨?_, fun i => ?_⟩⟩
  · unfold analyzeTweet
    rw [he]
  · unfold analyzeTweet
    rw [hs]
  · simp [analyzeDataframe]
  · simp only [analyzeDataframe, List.getElem?_map]
    cases texts[i]? <;> rfl

/-- C7 witness: with a capability failing on `"boom"` and succeeding
elsewhere, the failing row gets the neutral default and the table keeps
both rows. -/
theorem analyze_tweet_error_recovery_witness :
    analyzeTweet
      (fun t => if t = "boom" then .error "lexicon failure"
                else .ok ⟨0, 0, 1, 1/2⟩) "boom" = neutralScores :=
  (analyze_tweet_error_recovery _).1 "boom" "lexicon failure" rfl

/-! ### C9 -/

/-- C9: the statistics query returns the empty result on an empty scored
table (and only there), and its ratio computations are guarded: on any
non-empty table the three ratios are well-defined fractions summing to 1,
with `positive_ratio * total` the positive count. -/
theorem get_sentiment_statistics_empty :
    getSentimentStatistics [] = none ∧
    (∀ compounds : List ℚ,
      (getSentimentStatistics compounds = none ↔ compounds = [])) ∧
    (∀ compounds : List ℚ, compounds ≠ [] →
      ∃ s, getSentimentStatistics compounds = some s ∧
        s.positiveShare + s.negativeShare + s.neutralShare = 1 ∧
        s.positiveShare * (compounds.length : ℚ)
          = ((compounds.filter fun c => (1 : ℚ)/20 < c).length : ℚ)) := by
  refine ⟨rfl, fun compounds => ?_, fun compounds hne => ?_⟩
  · unfold getSentimentStatistics
    by_cases h : compounds = [] <;> simp [h]
  · have hlen : (0 : ℚ) < (compounds.length : ℚ) := by
      have := List.length_pos.mpr hne
      exact_mod_cast this
    refine ⟨_, by rw [getSentimentStatistics, if_neg hne], ?_, ?_⟩
    · show (if (0 : ℚ) < (compounds.length : ℚ) then _ / _ else 0)
        + (if (0 : ℚ) < (compounds.length : ℚ) then _ / _ else 0)
        + (if (0 : ℚ) < (compounds.length : ℚ) then _ / _ else 0) = 1
      rw [if_pos hlen, if_pos hlen, if_pos hlen]
      field_simp
    · show (if (0 : ℚ) < (compounds.length : ℚ) then _ / _ else 0) * _ = _
      rw [if_pos hlen]
      field_simp

/-- C9 witness: a one-row table gets full statistics with ratios summing
to 1. -/
theorem get_sentiment_statistics_empty_witness :
    ∃ s, getSentimentStatistics [(1 : ℚ)/2] = some s ∧
      s.positiveShare + s.negativeShare + s.neutralShare = 1 ∧
      s.positiveShare * (([(1 : ℚ)/2] : List ℚ).length : ℚ)
        = ((([(1 : ℚ)/2] : List ℚ).filter fun c => (1 : ℚ)/20 < c).length : ℚ) :=
  get_sentiment_statistics_empty.2.2 [(1 : ℚ)/2] (by decide)

/-! ### C1 -/

/-- Summing the linearly rescaled second components. -/
theorem sum_snd_map_linear (l : List (String × ℚ)) (t : ℚ) :
    ((l.map fun p => (p.1, p.2 / t * 100)).map Prod.snd).sum
      = (l.map Prod.snd).sum / t * 100 := by
  rw [List.map_map]
  induction l with
  | nil => simp
  | cons h l ih =>
    simp only [List.map_cons, List.sum_cons, Function.comp_apply]
    rw [ih]
    ring

/-- C1: batch normalization — on a non-empty raw-score mapping with
non-zero total, every subject gets the unclamped linear share
`(raw / total) * 100` and the shares sum to 100 (within 1e-6, here
exactly); on a zero total every subject gets the equal share `100 / N`. -/
theorem normalize_to_percentages_spec (raw : List (String × ℚ))
    (_hne : raw ≠ []) :
    ((raw.map Prod.snd).sum ≠ 0 →
      normalizeToPercentages raw
        = raw.map (fun p => (p.1, p.2 / (raw.map Prod.snd).sum * 100)) ∧
      |((normalizeToPercentages raw).map Prod.snd).sum - 100| ≤ 1 / 1000000) ∧
    ((raw.map Prod.snd).sum = 0 →
      normalizeToPercentages raw
        = raw.map fun p => (p.1, 100 / (raw.length : ℚ))) := by
  constructor
  · intro h0
    have he : normalizeToPercentages raw
        = raw.map (fun p => (p.1, p.2 / (raw.map Prod.snd).sum * 100)) := by
      unfold normalizeToPercentages
      rw [if_neg h0]
    refine ⟨he, ?_⟩
    rw [he, sum_snd_map_linear, div_self h0, one_mul]
    norm_num
  · intro h0
    unfold normalizeToPercentages
    rw [if_pos h0]

/-- C1 witness: the spec's negative-total example, raw scores
`{A: -0.5, B: -0.3}`, is non-empty with total `-0.8 ≠ 0`; the shares are
the linear ones (62.5 and 37.5) and sum to 100. -/
theorem normalize_to_percentages_spec_witness :
    normalizeToPercentages [("A", -(1 : ℚ)/2), ("B", -(3 : ℚ)/10)]
      = [("A", -(1 : ℚ)/2), ("B", -(3 : ℚ)/10)].map
          (fun p => (p.1,
            p.2 / (([("A", -(1 : ℚ)/2), ("B", -(3 : ℚ)/10)].map Prod.snd).sum)
              * 100)) ∧
    |((normalizeToPercentages
        [("A", -(1 : ℚ)/2), ("B", -(3 : ℚ)/10)]).map Prod.snd).sum - 100|
      ≤ 1 / 1000000 :=
  (normalize_to_percentages_spec _ (by simp)).1 (by norm_num)

/-! ### C2 -/

/-- C2 counterexample: on `"[[a/b/c]]"` the code strips BOTH leading and
BOTH trailing brackets (Python `strip('[]')` removes all of them) and
extracts `"c"`, while the claim's single-character strip would leave
`"[a/b/c]"` and extract `"c]"`. -/
theorem clean_urls_counterexample :
    cleanUrl (some "[[a/b/c]]") = "c" ∧
    cleanUrlClaim (some "[[a/b/c]]") = "c]" ∧
    cleanUrlClaim (some "[[a/b/c]]") ≠ cleanUrl (some "[[a/b/c]]") := by
  decide

/-- Dropping a prefix every element of which satisfies the predicate. -/
theorem dropWhile_append_of_all (p : Char → Bool) (pre l : List Char)
    (h : ∀ c ∈ pre, p c = true) :
    (pre ++ l).dropWhile p = l.dropWhile p := by
  induction pre with
  | nil => rfl
  | cons c rest ih =>
    rw [List.cons_append, List.dropWhile_cons, if_pos (h c (by simp))]
    exact ih fun d hd => h d (by simp [hd])

/-- Lemma: `str.strip(chars)` is invariant under padding both ends with stripped
characters. -/
theorem pyStrip_pad (chars pre post : List Char) (s : String)
    (hpre : ∀ c ∈ pre, c ∈ chars) (hpost : ∀ c ∈ post, c ∈ chars) :
    pyStrip chars (String.mk (pre ++ s.data ++ post)) = pyStrip chars s := by
  unfold pyStrip
  have hpre2 : ∀ c ∈ pre, (decide (c ∈ chars)) = true :=
    fun c hc => decide_eq_true (hpre c hc)
  have hpost2 : ∀ c ∈ post.reverse, (decide (c ∈ chars)) = true :=
    fun c hc => decide_eq_true (hpost c (List.mem_reverse.mp hc))
  have hpostnil : post.dropWhile (fun c => decide (c ∈ chars)) = [] := by
    have := dropWhile_append_of_all (fun c => decide (c ∈ chars)) post []
      fun c hc => decide_eq_true (hpost c hc)
    simpa using this
  show String.mk
      ((((pre ++ s.data ++ post).dropWhile _).reverse.dropWhile _).reverse) = _
  rw [List.append_assoc,
    dropWhile_append_of_all (fun c => decide (c ∈ chars)) pre _ hpre2,
    List.dropWhile_append]
  by_cases hl : ((s.data.dropWhile fun c => decide (c ∈ chars)).isEmpty) = true
  · rw [if_pos hl, hpostnil]
    rw [List.isEmpty_iff] at hl
    rw [hl]
  · rw [if_neg hl, List.reverse_append,
      dropWhile_append_of_all (fun c => decide (c ∈ chars)) post.reverse _ hpost2]

/-- C2 amended: the cleaner strips ALL leading/trailing literal `[`/`]`
characters (equivalently, the extracted authority is invariant under
padding the field with any further bracket characters at either end),
splits the remainder on `/` and takes the segment at index 2; with fewer
than 3 segments the authority is the empty string. -/
theorem clean_urls_amended (cell : Option String) (pre post : List Char)
    (hpre : ∀ c ∈ pre, c = '[' ∨ c = ']')
    (hpost : ∀ c ∈ post, c = '[' ∨ c = ']') :
    cleanUrl (some (String.mk (pre ++ (pyStr cell).data ++ post)))
      = cleanUrl cell ∧
    ((pySplit '/' (pyStrip ['[', ']'] (pyStr cell))).length < 3 →
      cleanUrl cell = "") ∧
    (¬ (pySplit '/' (pyStrip ['[', ']'] (pyStr cell))).length < 3 →
      cleanUrl cell
        = (pySplit '/' (pyStrip ['[', ']'] (pyStr cell))).getD 2 "") := by
  refine ⟨?_, fun h => by rw [cleanUrl, if_pos h], fun h => by rw [cleanUrl, if_neg h]⟩
  show cleanUrl (some (String.mk (pre ++ (pyStr cell).data ++ post))) = cleanUrl cell
  unfold cleanUrl
  rw [show pyStr (some (String.mk (pre ++ (pyStr cell).data ++ post)))
      = String.mk (pre ++ (pyStr cell).data ++ post) from rfl,
    pyStrip_pad ['[', ']'] pre post (pyStr cell)
      (fun c hc => by rcases hpre c hc with h | h <;> simp [h])
      (fun c hc => by rcases hpost c hc with h | h <;> simp [h])]

/-- C2 witness: padding a well-formed bracketed URL with one more bracket
on each side leaves the extracted authority unchanged. -/
theorem clean_urls_amended_witness :
    cleanUrl (some (String.mk
        (['['] ++ (pyStr (some "[https://twitter.com/user/status]")).data
          ++ [']'])))
      = cleanUrl (some "[https://twitter.com/user/status]") ∧
    ((pySplit '/' (pyStrip ['[', ']']
        (pyStr (some "[https://twitter.com/user/status]")))).length < 3 →
      cleanUrl (some "[https://twitter.com/user/status]") = "") ∧
    (¬ (pySplit '/' (pyStrip ['[', ']']
        (pyStr (some "[https://twitter.com/user/status]")))).length < 3 →
      cleanUrl (some "[https://twitter.com/user/status]")
        = (pySplit '/' (pyStrip ['[', ']']
            (pyStr (some "[https://twitter.com/user/status]")))).getD 2 "") :=
  clean_urls_amended (some "[https://twitter.com/user/status]") ['['] [']']
    (by decide) (by decide)

/-! ### C3 -/

/-- C3 counterexample: a row whose `urls` value yields fewer than 3
slash-separated segments gets the empty-string authority, and pandas
`dropna()` does NOT drop it — the row is retained with a blank field,
contradicting the claimed invariant. -/
theorem cleaned_set_counterexample :
    cleanTweetData [⟨some "2020-08-01", some "hello", some "[a/b]"⟩]
      = [⟨some "2020-08-01", some "hello", some ""⟩] ∧
    ¬ (∀ r ∈ cleanTweetData [⟨some "2020-08-01", some "hello", some "[a/b]"⟩],
        r.urls ≠ some "") := by
  decide

/-- C3 amended: after cleaning, every row has non-missing (non-NaN)
`date`, `text` and `url_field` cells and no retained authority is an ad
(longer than `"twitter.com"` and different from it) — but the `url_field`
may be the empty string: a row whose `urls` value yields fewer than 3
segments is kept with a blank authority, not dropped. -/
theorem cleaned_set_amended (rows : List Row) :
    (∀ r ∈ cleanTweetData rows,
      r.date.isSome = true ∧ r.tweet.isSome = true ∧ r.urls.isSome = true ∧
      ∀ s, r.urls = some s →
        ¬ (TWITTER_DOMAIN.length < s.length ∧ s ≠ TWITTER_DOMAIN)) ∧
    (∀ d t : String,
      cleanTweetData [⟨some d, some t, some "[a/b]"⟩]
        = [⟨some d, some t, some ""⟩]) := by
  constructor
  · intro r hr
    unfold cleanTweetData removeMissingData at hr
    rw [List.mem_filter] at hr
    obtain ⟨hmem, hkeep⟩ := hr
    simp only [Bool.and_eq_true] at hkeep
    refine ⟨hkeep.1.1, hkeep.1.2, hkeep.2, ?_⟩
    intro s hs
    unfold removeAdsStep at hmem
    rw [List.mem_map] at hmem
    obtain ⟨r0, -, hr0⟩ := hmem
    subst hr0
    obtain ⟨u, -, hu⟩ := Option.bind_eq_some.mp hs
    exact filterNonTwitterUrls_some u s hu
  · intro d t
    rfl

/-- C3 witness: a row with a retained `twitter.com` authority satisfies
the amended per-row invariant. -/
theorem cleaned_set_amended_witness :
    (⟨some "d", some "t", some "twitter.com"⟩ : Row).date.isSome = true ∧
    (⟨some "d", some "t", some "twitter.com"⟩ : Row).tweet.isSome = true ∧
    (⟨some "d", some "t", some "twitter.com"⟩ : Row).urls.isSome = true ∧
    ∀ s, (⟨some "d", some "t", some "twitter.com"⟩ : Row).urls = some s →
      ¬ (TWITTER_DOMAIN.length < s.length ∧ s ≠ TWITTER_DOMAIN) :=
  (cleaned_set_amended
      [⟨some "d", some "t", some "[https://twitter.com/u/v]"⟩]).1
    ⟨some "d", some "t", some "twitter.com"⟩ (by decide)

/-! ### C10 -/

/-- Helper: `pyEndsWith` spelled as an explicit suffix decomposition. -/
theorem pyEndsWith_iff (suf s : String) :
    pyEndsWith suf s = true ↔ ∃ t : String, s = t ++ suf := by
  unfold pyEndsWith isSuffixList
  rw [Bool.and_eq_true, beq_iff_eq, decide_eq_true_eq]
  constructor
  · rintro ⟨hdrop, hlen⟩
    refine ⟨String.mk (s.data.take (s.data.length - suf.data.length)),
      String.ext ?_⟩
    rw [String.data_append]
    conv_lhs =>
      rw [← List.take_append_drop (s.data.length - suf.data.length) s.data]
    rw [hdrop]
  · rintro ⟨t, rfl⟩
    refine ⟨?_, ?_⟩
    · rw [String.data_append]
      have hlen2 : (t.data ++ suf.data).length - suf.data.length
          = t.data.length := by simp
      rw [hlen2, List.drop_left]
    · rw [String.data_append]
      simp

/-- C10: a directory entry is selected exactly when its name, lowercased,
ends with `".csv"` (so `.CSV`, `.Csv` variants are selected too), and the
subject identifier paired with it is the filename stem with original case
preserved. -/
theorem find_csv_files_spec (listing : List String) :
    (∀ name ∈ listing,
      ((∃ subj, (name, subj) ∈ findCsvFiles listing) ↔
        ∃ t : String, pyLower name = t ++ ".csv")) ∧
    (∀ name subj, (name, subj) ∈ findCsvFiles listing →
      name ∈ listing ∧ subj = pathStem name) ∧
    (isCsvFile "Laycon.CSV" = true ∧ isCsvFile "Ozo.Csv" = true ∧
      isCsvFile "readme.txt" = false ∧
      findCsvFiles ["Laycon.CSV"] = [("Laycon.CSV", "Laycon")]) := by
  refine ⟨fun name hname => ?_, fun name subj h => ?_, by decide⟩
  · rw [← pyEndsWith_iff]
    show (∃ subj, (name, subj) ∈ findCsvFiles listing) ↔ isCsvFile name = true
    constructor
    · rintro ⟨subj, hs⟩
      unfold findCsvFiles at hs
      rw [List.mem_map] at hs
      obtain ⟨n, hn, heq⟩ := hs
      have hn2 : n = name := congrArg Prod.fst heq
      subst hn2
      exact (List.mem_filter.mp hn).2
    · intro hcsv
      exact ⟨pathStem name,
        List.mem_map.mpr ⟨name, List.mem_filter.mpr ⟨hname, hcsv⟩, rfl⟩⟩
  · unfold findCsvFiles at h
    rw [List.mem_map] at h
    obtain ⟨n, hn, heq⟩ := h
    have hn2 : n = name := congrArg Prod.fst heq
    subst hn2
    exact ⟨(List.mem_filter.mp hn).1, (congrArg Prod.snd heq).symm⟩

/-- C10 witness: in a directory holding only `"Laycon.CSV"`, that name is
selected (its lowercase form ends in `".csv"`). -/
theorem find_csv_files_spec_witness :
    (∃ subj, ("Laycon.CSV", subj) ∈ findCsvFiles ["Laycon.CSV"]) ↔
      ∃ t : String, pyLower "Laycon.CSV" = t ++ ".csv" :=
  (find_csv_files_spec ["Laycon.CSV"]).1 "Laycon.CSV" (by decide)

/-! ### C5 -/

/-- C5: per-file failures are isolated — the batch result is exactly the
per-file successes whenever there is at least one; a readable, non-empty
file missing the `tweet` column fails with an error naming `tweet`; a
directory with one well-formed file and one file missing `tweet` yields
exactly one record set; zero successes fail the whole operation. -/
theorem load_all_tweets_spec :
    (∀ files : List ParsedCsv, files ≠ [] →
      (files.filterMap fun f => (loadSingleFile f).toOption) ≠ [] →
      loadAllTweets files
        = .ok (files.filterMap fun f => (loadSingleFile f).toOption)) ∧
    (∀ f : ParsedCsv, f.readable = true → f.rowCount ≠ 0 →
      f.columns.contains "tweet" = false →
      ∃ missing, loadSingleFile f = .error (.missingColumns f.name missing) ∧
        "tweet" ∈ missing) ∧
    (loadAllTweets
        [⟨"Laycon.csv", true, ["date", "tweet", "urls"], 5⟩,
         ⟨"Ozo.csv", true, ["date", "urls"], 3⟩]
      = .ok [⟨"Laycon", ["date", "tweet", "urls"], 5⟩] ∧
     loadSingleFile ⟨"Ozo.csv", true, ["date", "urls"], 3⟩
      = .error (.missingColumns "Ozo.csv" ["tweet"])) ∧
    (∀ files : List ParsedCsv, files ≠ [] →
      (files.filterMap fun f => (loadSingleFile f).toOption) = [] →
      loadAllTweets files = .error "Failed to load any valid tweet data") := by
  have hmem : ∀ f : ParsedCsv, f.columns.contains "tweet" = false →
      "tweet" ∈ REQUIRED_COLUMNS.filter fun c => ! f.columns.contains c := by
    intro f ht
    rw [List.mem_filter]
    exact ⟨by decide, by rw [ht]; rfl⟩
  refine ⟨fun files hne hld => ?_, fun f hr hc ht => ?_, ⟨rfl, rfl⟩,
    fun files hne hld => ?_⟩
  · rw [loadAllTweets, if_neg hne, if_neg hld]
  · refine ⟨REQUIRED_COLUMNS.filter fun c => ! f.columns.contains c,
      ?_, hmem f ht⟩
    rw [loadSingleFile, if_neg (by simp [hr]), if_neg hc, validateColumns,
      if_neg fun hemp => absurd (hemp ▸ hmem f ht) (List.not_mem_nil _)]
    rfl
  · rw [loadAllTweets, if_neg hne, if_pos hld]

/-- C5 witness: the concrete two-file directory of the theorem, applied at
a good file and a file missing `tweet`. -/
theorem load_all_tweets_spec_witness :
    ∃ missing,
      loadSingleFile ⟨"Dorathy.csv", true, ["date", "urls"], 2⟩
        = .error (.missingColumns "Dorathy.csv" missing) ∧
      "tweet" ∈ missing :=
  load_all_tweets_spec.2.1 ⟨"Dorathy.csv", true, ["date", "urls"], 2⟩
    rfl (by decide) rfl

/-! ### C6 -/

/-- The per-subject raw-rating pass: failures are exactly the subjects
with an empty table, successes carry the mean compound and the count. -/
theorem calc_raw_eq (analyzedData : List (String × List ℚ)) :
    rawResults analyzedData
      = (analyzedData.filter fun p => ! p.2.isEmpty).map
          fun p => (p.1, (p.2.sum / (p.2.length : ℚ), p.2.length)) := by
  induction analyzedData with
  | nil => rfl
  | cons h t ih =>
    unfold rawResults at ih ⊢
    simp only [List.filterMap_cons]
    by_cases hh : h.2 = []
    · rw [show (calculateRating h.2 h.1).toOption = none from
        by unfold calculateRating; rw [if_pos hh]; rfl]
      rw [List.filter_cons_of_neg (by simp [hh])]
      exact ih
    · rw [show (calculateRating h.2 h.1).toOption
          = some (h.2.sum / (h.2.length : ℚ), h.2.length) from
        by unfold calculateRating; rw [if_neg hh]; rfl]
      rw [List.filter_cons_of_pos (by simp [hh]), List.map_cons]
      exact congrArg (List.cons _) ih

/-- Normalization keeps the subjects and their stored order. -/
theorem normalize_map_fst (l : List (String × ℚ)) :
    (normalizeToPercentages l).map Prod.fst = l.map Prod.fst := by
  unfold normalizeToPercentages
  by_cases h : (l.map Prod.snd).sum = 0 <;> simp [h]

/-- C6: a subject with zero scoreable rows is excluded from the final
result without aborting the subjects after it — the surviving subjects
are exactly those with a non-empty table, in order — the per-subject
empty-input error is the caught `ValueError`, and the batch fails exactly
when no subject at all produces a rating. -/
theorem calculate_all_ratings_empty_subject
    (analyzedData : List (String × List ℚ)) :
    (exceptIsOk (calculateAllRatings analyzedData) = true ↔
      ∃ p ∈ analyzedData, p.2 ≠ []) ∧
    (∀ res, calculateAllRatings analyzedData = .ok res →
      res.housemateRatings.map Prod.fst
        = (analyzedData.filter fun p => ! p.2.isEmpty).map Prod.fst) ∧
    (∀ name, calculateRating [] name
      = .error ("Cannot calculate rating for empty DataFrame ("
          ++ name ++ ")")) := by
  refine ⟨?_, fun res hres => ?_, fun name => rfl⟩
  · unfold calculateAllRatings
    by_cases hemp : analyzedData = []
    · subst hemp
      simp [exceptIsOk]
    · rw [if_neg hemp, calc_raw_eq]
      by_cases hflt : (analyzedData.filter fun p => ! p.2.isEmpty) = []
      · rw [hflt]
        simp only [List.map_nil, if_pos rfl]
        rw [List.filter_eq_nil_iff] at hflt
        constructor
        · intro h
          exact absurd h (by simp [exceptIsOk])
        · rintro ⟨p, hp, hpne⟩
          exact absurd (hflt p hp) (by simp [hpne])
      · rw [if_neg (by simpa using hflt)]
        constructor
        · intro _
          rw [List.filter_eq_nil_iff] at hflt
          push_neg at hflt
          obtain ⟨p, hp, hpb⟩ := hflt
          exact ⟨p, hp, by simpa using hpb⟩
        · intro _
          rfl
  · unfold calculateAllRatings at hres
    by_cases hemp : analyzedData = []
    · rw [if_pos hemp] at hres
      exact absurd hres (by simp)
    · rw [if_neg hemp] at hres
      by_cases hraw : rawResults analyzedData = []
      · rw [if_pos hraw] at hres
        exact absurd hres (by simp)
      · rw [if_neg hraw] at hres
        have hpayload := Except.ok.inj hres
        rw [← hpayload, normalize_map_fst, calc_raw_eq, List.map_map,
          List.map_map]
        rfl

/-- C6 witness: a batch holding the empty subject `"A"` and the non-empty
subject `"B"` still succeeds — the empty subject does not abort it. -/
theorem calculate_all_ratings_empty_subject_witness :
    exceptIsOk (calculateAllRatings [("A", []), ("B", [(1 : ℚ)/2])]) = true :=
  (calculate_all_ratings_empty_subject [("A", []), ("B", [(1 : ℚ)/2])]).1.mpr
    ⟨("B", [(1 : ℚ)/2]), by simp, by simp⟩

/-! ### C8 -/

/-- One step of the Python `min`-with-key scan. -/
theorem pyMinKey_cons (k : String × ℚ → ℚ) (h x : String × ℚ)
    (xs : List (String × ℚ)) :
    pyMinKey k h (x :: xs) = pyMinKey k (if k x < k h then x else h) xs := rfl

/-- The scan result is one of the scanned elements. -/
theorem pyMinKey_mem (k : String × ℚ → ℚ) :
    ∀ (t : List (String × ℚ)) (h : String × ℚ), pyMinKey k h t ∈ h :: t := by
  intro t
  induction t with
  | nil => intro h; exact List.mem_singleton.mpr rfl
  | cons x xs ih =>
    intro h
    rw [pyMinKey_cons]
    rcases List.mem_cons.mp (ih (if k x < k h then x else h)) with he | hm
    · rw [he]
      by_cases hc : k x < k h
      · rw [if_pos hc]
        exact List.mem_cons_of_mem _ (List.mem_cons_self _ _)
      · rw [if_neg hc]
        exact List.mem_cons_self _ _
    · exact List.mem_cons_of_mem _ (List.mem_cons_of_mem _ hm)

/-- The scan result has the minimal key among the scanned elements. -/
theorem pyMinKey_le (k : String × ℚ → ℚ) :
    ∀ (t : List (String × ℚ)) (h : String × ℚ),
      ∀ q ∈ h :: t, k (pyMinKey k h t) ≤ k q := by
  intro t
  induction t with
  | nil =>
    intro h q hq
    rw [List.mem_singleton.mp hq]
    exact le_refl _
  | cons x xs ih =>
    intro h q hq
    rw [pyMinKey_cons]
    have hstep : k (if k x < k h then x else h) ≤ k h ∧
        k (if k x < k h then x else h) ≤ k x := by
      by_cases hc : k x < k h
      · rw [if_pos hc]
        exact ⟨le_of_lt hc, le_refl _⟩
      · rw [if_neg hc]
        exact ⟨le_refl _, le_of_not_lt hc⟩
    have hbase : k (pyMinKey k (if k x < k h then x else h) xs)
        ≤ k (if k x < k h then x else h) :=
      ih _ _ (List.mem_cons_self _ _)
    rcases List.mem_cons.mp hq with he | hq2
    · rw [he]
      exact le_trans hbase hstep.1
    · rcases List.mem_cons.mp hq2 with he2 | hm
      · rw [he2]
        exact le_trans hbase hstep.2
      · exact ih _ _ (List.mem_cons_of_mem _ hm)

/-- The scan result is the FIRST element attaining the minimal key: the
left-to-right `find?` for a key at most the minimum stops exactly there. -/
theorem pyMinKey_find (k : String × ℚ → ℚ) :
    ∀ (t : List (String × ℚ)) (h : String × ℚ),
      (h :: t).find? (fun q => decide (k q ≤ k (pyMinKey k h t)))
        = some (pyMinKey k h t) := by
  intro t
  induction t with
  | nil =>
    intro h
    exact List.find?_cons_of_pos _ (decide_eq_true (le_refl _))
  | cons x xs ih =>
    intro h
    rw [pyMinKey_cons]
    by_cases hc : k x < k h
    · rw [if_pos hc]
      have hlt : ¬ k h ≤ k (pyMinKey k x xs) :=
        not_le.mpr (lt_of_le_of_lt (pyMinKey_le k xs x _ (List.mem_cons_self _ _)) hc)
      rw [List.find?_cons_of_neg _ (by simpa using hlt)]
      exact ih x
    · rw [if_neg hc]
      have hih := ih h
      by_cases hh : k h ≤ k (pyMinKey k h xs)
      · rw [List.find?_cons_of_pos
            (p := fun q => decide (k q ≤ k (pyMinKey k h xs)))
            _ (decide_eq_true hh)] at hih
        rw [List.find?_cons_of_pos
            (p := fun q => decide (k q ≤ k (pyMinKey k h xs)))
            _ (decide_eq_true hh)]
        exact hih
      · rw [List.find?_cons_of_neg
            (p := fun q => decide (k q ≤ k (pyMinKey k h xs)))
            _ (by simpa using hh)] at hih
        rw [List.find?_cons_of_neg
            (p := fun q => decide (k q ≤ k (pyMinKey k h xs)))
            _ (by simpa using hh)]
        have hx : ¬ k x ≤ k (pyMinKey k h xs) := by
          intro hxle
          exact hh (le_trans (le_of_not_lt hc) hxle)
        rw [List.find?_cons_of_neg
            (p := fun q => decide (k q ≤ k (pyMinKey k h xs)))
            _ (by simpa using hx)]
        exact hih

/-- Python `max` with first-wins tie-break is `pyMinKey` on the negated
key. -/
theorem maxfold_eq_minKey :
    ∀ (t : List (String × ℚ)) (h : String × ℚ),
      t.foldl (fun acc q => if acc.2 < q.2 then q else acc) h
        = pyMinKey (fun p => -p.2) h t := by
  intro t
  induction t with
  | nil => intro h; rfl
  | cons x xs ih =>
    intro h
    rw [pyMinKey_cons]
    show xs.foldl _ (if h.2 < x.2 then x else h) = _
    rw [show (if -x.2 < -h.2 then x else h) = (if h.2 < x.2 then x else h) from
      if_congr neg_lt_neg_iff rfl rfl]
    exact ih _

/-- C8: on the empty mapping both ranking queries return the sentinel
`(none, 0.0)` and never raise; on a non-empty mapping `get_lowest_rated`
returns an entry of minimal rating — the first-encountered one among ties
in stored order — and `get_highest_rated` symmetrically returns the first
entry of maximal rating. -/
theorem ranking_queries_spec :
    getLowestRated [] = (none, 0) ∧
    getHighestRated [] = (none, 0) ∧
    (∀ ratings : List (String × ℚ), ratings ≠ [] →
      ∃ p, p ∈ ratings ∧ getLowestRated ratings = (some p.1, p.2) ∧
        (∀ q ∈ ratings, p.2 ≤ q.2) ∧
        ratings.find? (fun q => decide (q.2 ≤ p.2)) = some p) ∧
    (∀ ratings : List (String × ℚ), ratings ≠ [] →
      ∃ p, p ∈ ratings ∧ getHighestRated ratings = (some p.1, p.2) ∧
        (∀ q ∈ ratings, q.2 ≤ p.2) ∧
        ratings.find? (fun q => decide (p.2 ≤ q.2)) = some p) := by
  refine ⟨rfl, rfl, fun ratings hne => ?_, fun ratings hne => ?_⟩
  · obtain ⟨h, t, rfl⟩ := List.exists_cons_of_ne_nil hne
    refine ⟨pyMinKey (fun p => p.2) h t, pyMinKey_mem _ t h, rfl,
      fun q hq => pyMinKey_le _ t h q hq, pyMinKey_find _ t h⟩
  · obtain ⟨h, t, rfl⟩ := List.exists_cons_of_ne_nil hne
    refine ⟨pyMinKey (fun p => -p.2) h t, pyMinKey_mem _ t h, ?_, ?_, ?_⟩
    · show (some (t.foldl (fun acc q => if acc.2 < q.2 then q else acc) h).1,
        (t.foldl (fun acc q => if acc.2 < q.2 then q else acc) h).2) = _
      rw [maxfold_eq_minKey]
    · intro q hq
      have := pyMinKey_le (fun p => -p.2) t h q hq
      exact neg_le_neg_iff.mp this
    · have := pyMinKey_find (fun p => -p.2) t h
      rw [show (fun q : String × ℚ =>
            decide (-q.2 ≤ -(pyMinKey (fun p => -p.2) h t).2))
          = fun q : String × ℚ =>
            decide ((pyMinKey (fun p => -p.2) h t).2 ≤ q.2) from
        funext fun q => by rw [decide_eq_decide]; exact neg_le_neg_iff] at this
      exact this

/-- C8 witness: on `[("A", 5), ("B", 5), ("C", 3)]` the lowest query picks
`("C", 3)` and the highest query picks the first-encountered maximal entry
`("A", 5)`. -/
theorem ranking_queries_spec_witness :
    ∃ p, p ∈ [("A", (5 : ℚ)), ("B", 5), ("C", 3)] ∧
      getHighestRated [("A", (5 : ℚ)), ("B", 5), ("C", 3)] = (some p.1, p.2) ∧
      (∀ q ∈ [("A", (5 : ℚ)), ("B", 5), ("C", 3)], q.2 ≤ p.2) ∧
      List.find? (fun q => decide (p.2 ≤ q.2))
        [("A", (5 : ℚ)), ("B", 5), ("C", 3)] = some p :=
  ranking_queries_spec.2.2.2 [("A", (5 : ℚ)), ("B", 5), ("C", 3)] (by simp)

end BBNaija
